import Mathlib

/-!
Shallow embedding of the Dining Concierge lambdas
(`src/Assignment_1/lambda/LF1.py`, `LF2.py`, `LF3.py`) with theorems
checking the claims of the specification about them.

Conventions of the embedding:
* Python strings are Lean `String`s (`str.strip` is `pyStrip`,
  `str.lower` is `pyLower`, both ASCII-faithful).
* JSON objects with string values are association lists
  `List (String × String)`; Python `dict` key uniqueness is reflected
  where lookups depend on it.
* External services (queue, search index, key-value store, mail
  channel) are an explicit environment; every outbound call is
  recorded in an effect trace, and a raised exception is `Except.error`.
* `random.sample(pop, k)` is modelled as selection without
  replacement driven by an arbitrary stream of naturals.
-/

namespace DiningConcierge

/-- ASCII whitespace as recognised by Python `str.strip` / `\s`. -/
def pyIsSpace (c : Char) : Bool :=
  c = ' ' || c = '\t' || c = '\n' || c = '\r' || c = '\x0b' || c = '\x0c'

/-- Python `str.strip()` (ASCII whitespace). -/
def pyStrip (s : String) : String :=
  String.mk (((s.toList.dropWhile pyIsSpace).reverse.dropWhile pyIsSpace).reverse)

/-- Python `str.lower()` (ASCII letters). -/
def pyLower (s : String) : String :=
  String.mk (s.toList.map Char.toLower)

/-- Test that `needle` starts `hay` (element-wise). -/
def leadsWith [DecidableEq α] : List α → List α → Bool
  | [], _ => true
  | _ :: _, [] => false
  | a :: as, b :: bs => a = b && leadsWith as bs

/-- Python `needle in hay` for strings: substring containment. -/
def strContains (hay needle : String) : Bool :=
  (List.range (hay.toList.length + 1)).any
    (fun i => leadsWith needle.toList (hay.toList.drop i))

/-- Model of `random.sample(pop, k)`: draw `k` elements without
replacement, the index of each draw supplied by the stream `rand`
(reduced mod the remaining population size). -/
def randSample (rand : Nat → Nat) : Nat → List α → Nat → List α
  | _, _, 0 => []
  | _, [], _ + 1 => []
  | step, a :: as, k + 1 =>
    let i := rand step % (a :: as).length
    (a :: as).get ⟨i, Nat.mod_lt _ (Nat.succ_pos _)⟩ ::
      randSample rand (step + 1) ((a :: as).eraseIdx i) k

namespace LF2

/-- A queue-message body: either text that `json.loads` rejects, or a
JSON object with string values (an association list in dict
key order; keys are unique as in a Python dict). -/
inductive Body where
  | malformed
  | obj (fields : List (String × String))
deriving Repr, DecidableEq

/-- Python `req.get(k)` on the parsed JSON object. -/
def lookupField (fields : List (String × String)) (k : String) : Option String :=
  (fields.find? (fun p => p.1 == k)).map (fun p => p.2)

/-- The alias loop of `parse_sqs_body`: first alias whose value is
present and not blank (`str(v).strip() != ""`) wins. -/
def resolveAlias (fields : List (String × String)) : List String → Option String
  | [] => none
  | a :: rest =>
    match lookupField fields a with
    | some v => if pyStrip v ≠ "" then some v else resolveAlias fields rest
    | none => resolveAlias fields rest

def cuisineAliases : List String := ["cuisine", "Cuisine"]
def emailAliases : List String := ["email", "Email"]
def locationAliases : List String := ["location", "Location"]
def dateAliases : List String := ["date", "Date", "dining_date", "DiningDate"]
def timeAliases : List String := ["time", "Time", "dining_time", "DiningTime"]
def peopleAliases : List String :=
  ["people", "People", "numberOfPeople", "NumberOfPeople", "people_count"]

structure ParsedReq where
  cuisine : String
  email : String
  location : String
  date : String
  time : String
  people : String
deriving Repr, DecidableEq

/-- Embedding of `parse_sqs_body` in `LF2.py`: alias resolution, required-field
check (`cuisine`, `email`), then normalisation (strip/lower cuisine,
strip email, default location `manhattan`, default date/time/people
empty). A missing/blank required field raises `ValueError`. -/
def parse_sqs_body : Body → Except String ParsedReq
  | .malformed => .error "json decode error"
  | .obj fields =>
    match resolveAlias fields cuisineAliases, resolveAlias fields emailAliases with
    | some c, some e =>
      .ok
        { cuisine := pyLower (pyStrip c)
          email := pyStrip e
          location := pyLower (pyStrip ((resolveAlias fields locationAliases).getD "manhattan"))
          date := (resolveAlias fields dateAliases).getD ""
          time := (resolveAlias fields timeAliases).getD ""
          people := (resolveAlias fields peopleAliases).getD "" }
    | _, _ => .error "Missing required fields"

/-- One `_source.RestaurantID` per search hit (`none` when absent). -/
def addHit (ids : List String) (rid? : Option String) : List String :=
  match rid? with
  | some rid => if rid ≠ "" && !(ids.contains rid) then ids ++ [rid] else ids
  | none => ids

/-- The id-collection loop of `search_restaurant_ids_by_cuisine`:
keep truthy ids, deduplicated, in index-return order. -/
def collectIds (hits : List (Option String)) : List String :=
  hits.foldl addHit []

/-- Full catalog entry as used by `format_email` (attribute values
rendered as strings; absent keys are `none`). -/
structure Restaurant where
  name : Option String
  address : Option String
  rating : Option String
  reviews : Option String
deriving Repr, DecidableEq

def restaurantLine (idx : Nat) (r : Restaurant) : String :=
  toString idx ++ ". " ++ r.name.getD "Unknown" ++ "\n   Address: " ++
    r.address.getD "N/A" ++ "\n   Rating: " ++ r.rating.getD "N/A" ++ " (" ++
    r.reviews.getD "N/A" ++ " reviews)\n"

def restaurantLines : Nat → List Restaurant → List String
  | _, [] => []
  | idx, r :: rs => restaurantLine idx r :: restaurantLines (idx + 1) rs

/-- Python `"\n".join(lines)` (i.e. `chr(10).join`). -/
def joinNL : List String → String
  | [] => ""
  | [s] => s
  | s :: rest@(_ :: _) => s ++ "\n" ++ joinNL rest

/-- Embedding of `format_email` in `LF2.py`: `(subject, body)`; the empty-result
branch is the apology body echoing the request parameters. -/
def format_email (req : ParsedReq) (restaurants : List Restaurant) : String × String :=
  let subject := "Your Dining Concierge Recommendations"
  if restaurants.isEmpty then
    (subject,
      "Hello!\n\nHere are your dining request details:\n- Cuisine: " ++ req.cuisine ++
      "\n- Location: " ++ req.location ++ "\n- Date: " ++ req.date ++
      "\n- Time: " ++ req.time ++ "\n- Number of people: " ++ req.people ++
      "\n\nSorry, we could not find matching restaurants at the moment.\n" ++
      "Please try another cuisine or try again later.\n\nBest,\nDining Concierge Bot\n")
  else
    (subject,
      "Hello!\n\nHere are my " ++ req.cuisine ++ " restaurant suggestions for " ++
      req.people ++ " people, on " ++ req.date ++ " at " ++ req.time ++ " in " ++
      req.location ++ ":\n\n" ++ joinNL (restaurantLines 1 restaurants) ++
      "\n\nEnjoy your meal!\n\nBest,\nDining Concierge Bot\n")

/-- Outbound calls made while processing one message. -/
inductive Effect where
  | search (cuisine : String)
  | batchGet (ids : List String)
  | sesSend (toAddr subject body : String)
  | sqsDelete (receipt : String)
deriving Repr, DecidableEq

/-- The external world for one message: the index hits, the catalog
store reply, whether the mail channel accepts the send, and the
randomness stream. -/
structure Env where
  searchHits : List (Option String)
  ddbItems : List Restaurant
  sendOk : Bool
  rand : Nat → Nat

inductive PyError where
  | valueError
  | clientError
deriving Repr, DecidableEq

/-- One received queue message: `extract_sqs_message_fields` already
merged the `Body`/`body` and `ReceiptHandle`/`receiptHandle` casings;
a missing body defaults to `"{}"`, i.e. the empty JSON object. -/
structure SqsMsg where
  body : Option Body
  receipt : Option String
deriving Repr, DecidableEq

/-- Embedding of `search_restaurant_ids_by_cuisine`: normalise the cuisine, return
`[]` without a query when it is blank, else query the index and
collect distinct truthy ids. -/
def search_restaurant_ids (hits : List (Option String)) (cuisine : String) :
    List Effect × List String :=
  if pyLower (pyStrip cuisine) = "" then ([], [])
  else ([Effect.search (pyLower (pyStrip cuisine))], collectIds hits)

/-- Embedding of `ddb_batch_get_restaurants`: no call at all for an empty id list;
else at most the first 100 keys are fetched. -/
def ddb_batch_get (items : List Restaurant) (ids : List String) :
    List Effect × List Restaurant :=
  if ids.isEmpty then ([], []) else ([Effect.batchGet (ids.take 100)], items)

/-- Python `random.sample(ids, k=min(3, len(ids))) if ids else []`. -/
def chosenIds (rand : Nat → Nat) (ids : List String) : List String :=
  if ids.isEmpty then [] else randSample rand 0 ids (min 3 ids.length)

structure MsgOutcome where
  result : Except PyError Bool
  effects : List Effect

/-- Embedding of `process_one_message` in `LF2.py`. A parse failure is the poison
path: delete (in poll mode) and report success. Otherwise search,
sample, fetch, compose, send; a mail-channel rejection re-raises
`ClientError` and the delete call is never reached; only after a
successful send is the message deleted (in poll mode). -/
def process_one_message (env : Env) (msg : SqsMsg) (shouldDelete : Bool) : MsgOutcome :=
  let bodyRaw := msg.body.getD (Body.obj [])
  let deleteEffects : List Effect :=
    match shouldDelete, msg.receipt with
    | true, some r => [Effect.sqsDelete r]
    | _, _ => []
  match parse_sqs_body bodyRaw with
  | .error _ => { result := .ok true, effects := deleteEffects }
  | .ok req =>
    let sr := search_restaurant_ids env.searchHits req.cuisine
    let chosen := chosenIds env.rand sr.2
    let gr := ddb_batch_get env.ddbItems chosen
    let fe := format_email req gr.2
    let sendEffects := [Effect.sesSend req.email fe.1 fe.2]
    if env.sendOk then
      { result := .ok true
        effects := sr.1 ++ gr.1 ++ sendEffects ++ deleteEffects }
    else
      { result := .error .clientError
        effects := sr.1 ++ gr.1 ++ sendEffects }

structure BatchSummary where
  received : Nat
  processed : Nat
  failed : Nat
deriving Repr, DecidableEq

/-- One step of the per-batch loop of `lambda_handler`: a message
whose processing returns `True` counts as processed; a raised
exception is caught and counts as failed, without aborting the rest
of the batch. -/
def batchStep (shouldDelete : Bool) (acc : BatchSummary) (it : Env × SqsMsg) :
    BatchSummary :=
  match (process_one_message it.1 it.2 shouldDelete).result with
  | .ok ok => if ok then { acc with processed := acc.processed + 1 }
              else { acc with failed := acc.failed + 1 }
  | .error _ => { acc with failed := acc.failed + 1 }

/-- The batch summary returned by `lambda_handler` for its messages. -/
def runBatch (items : List (Env × SqsMsg)) (shouldDelete : Bool) : BatchSummary :=
  items.foldl (batchStep shouldDelete)
    { received := items.length, processed := 0, failed := 0 }

end LF2

namespace LF1

/-- Lex slot map: slot name to `value.interpretedValue` (or `none`
when the slot or its value path is absent). Keys are unique and kept
in dict insertion order. -/
abbrev Slots := List (String × Option String)

/-- Session attributes: an opaque string-to-string bag. -/
abbrev Attrs := List (String × String)

/-- Embedding of `_norm_key`: lower-case, then drop every char outside `[a-z0-9]`. -/
def normKey (s : String) : String :=
  String.mk ((pyLower s).toList.filter
    (fun c => (decide ('a' ≤ c) && decide (c ≤ 'z')) ||
      (decide ('0' ≤ c) && decide (c ≤ '9'))))

/-- Embedding of `get_slot_value`: the `value.interpretedValue` of the slot, or `None`. -/
def get_slot_value (slots : Slots) (name : String) : Option String :=
  match slots.find? (fun p => p.1 == name) with
  | some p => p.2
  | none => none

/-- Lookup in `norm_to_key = \x7b_norm_key(k): k for k in slots\x7d`:
on duplicate normalised keys, the later slot key wins. -/
def normToKeyGet (slots : Slots) (nk : String) : Option String :=
  ((slots.map (fun p => (normKey p.1, p.1))).reverse.find?
    (fun p => p.1 == nk)).map (fun p => p.2)

/-- Phase 1 of `get_slot_value_fuzzy`: exact (normalised) name match;
return the first truthy value. -/
def fuzzyExact (slots : Slots) : List String → Option String
  | [] => none
  | n :: rest =>
    match normToKeyGet slots (normKey n) with
    | some k =>
      if k ≠ "" then
        match get_slot_value slots k with
        | some v => if v ≠ "" then some v else fuzzyExact slots rest
        | none => fuzzyExact slots rest
      else fuzzyExact slots rest
    | none => fuzzyExact slots rest

/-- Phase 2 of `get_slot_value_fuzzy`: first slot whose normalised key
contains one of the keyword tokens and whose value is truthy. -/
def fuzzyKeyword (slots : Slots) (tokens : List String) :
    List (String × Option String) → Option String
  | [] => none
  | (rk, _) :: rest =>
    if tokens.any (fun t => strContains (normKey rk) t) then
      match get_slot_value slots rk with
      | some v => if v ≠ "" then some v else fuzzyKeyword slots tokens rest
      | none => fuzzyKeyword slots tokens rest
    else fuzzyKeyword slots tokens rest

def get_slot_value_fuzzy (slots : Slots) (exactNames tokens : List String) :
    Option String :=
  match fuzzyExact slots exactNames with
  | some v => some v
  | none => fuzzyKeyword slots tokens slots

/-- A char matching the regex class `[^@\s]`. -/
def okEmailChar (c : Char) : Bool := !(pyIsSpace c) && c ≠ '@'

/-- Embedding of `is_valid_email`: Python
`re.match(r"^[^@\s]+@[^@\s]+\.[^@\s]+$", email)`. The local part is
everything before the first `@`; the domain may contain no `@` or
whitespace and must have a dot at an interior position; `$` also
matches just before one string-final newline. -/
def emailCore (cs : List Char) : Bool :=
  match cs.findIdx? (fun c => c = '@') with
  | none => false
  | some i =>
    let a := cs.take i
    let b := cs.drop (i + 1)
    !a.isEmpty && a.all okEmailChar && !b.isEmpty && b.all okEmailChar &&
      ((b.drop 1).dropLast).contains '.'

def is_valid_email (email : String) : Bool :=
  let cs0 := email.toList
  emailCore (if cs0.getLast? = some '\n' then cs0.dropLast else cs0)

def attrGet (attrs : Attrs) (k : String) : Option String :=
  (attrs.find? (fun p => p.1 == k)).map (fun p => p.2)

/-- Python dict assignment `attrs[k] = v`. -/
def setAttr (attrs : Attrs) (k v : String) : Attrs :=
  if attrs.any (fun p => p.1 == k) then
    attrs.map (fun p => if p.1 == k then (k, v) else p)
  else attrs ++ [(k, v)]

/-- The `or`-chain over candidate keys: first truthy value wins. -/
def firstTruthy : List (Option String) → Option String
  | [] => none
  | some v :: rest => if v ≠ "" then some v else firstTruthy rest
  | none :: rest => firstTruthy rest

/-- Embedding of `get_user_id_from_session_attributes`: `userId`/`userid`/`user_id`
with Python truthiness, stripped; a blank result is `None`. -/
def get_user_id (attrs : Attrs) : Option String :=
  match firstTruthy
      [attrGet attrs "userId", attrGet attrs "userid", attrGet attrs "user_id"] with
  | some v => if pyStrip v = "" then none else some (pyStrip v)
  | none => none

def ALLOWED_CUISINES : List String :=
  ["chinese", "japanese", "italian", "mexican", "american"]

def ALLOWED_LOCATIONS : List String :=
  ["manhattan", "new york", "nyc", "manhattan, ny"]

/-- A Lex response: dialog action, intent state, pass-through slots,
session attributes, and the plain-text message, flattened. -/
structure DialogResult where
  actionType : String
  slotToElicit : Option String
  intentName : String
  intentState : String
  slots : Slots
  sessionAttributes : Attrs
  message : Option String
deriving Repr, DecidableEq

def close (intentName message state : String) (slots : Slots) (attrs : Attrs) :
    DialogResult :=
  { actionType := "Close", slotToElicit := none, intentName,
    intentState := state, slots, sessionAttributes := attrs,
    message := some message }

def delegate (intentName : String) (slots : Slots) (attrs : Attrs) : DialogResult :=
  { actionType := "Delegate", slotToElicit := none, intentName,
    intentState := "InProgress", slots, sessionAttributes := attrs,
    message := none }

def elicit_slot (intentName : String) (slots : Slots) (slotToElicit message : String)
    (attrs : Attrs) : DialogResult :=
  { actionType := "ElicitSlot", slotToElicit := some slotToElicit, intentName,
    intentState := "InProgress", slots, sessionAttributes := attrs,
    message := some message }

/-- Outbound writes of the Validator. -/
inductive Effect where
  | sqsSend (location cuisine date time people email : String) (userId : Option String)
  | ddbPut (userId location cuisine : String) (email : Option String)
deriving Repr, DecidableEq

/-- Embedding of `save_user_last_search`: write the user-state record only when the
table is configured and both `user_id` and `cuisine` are truthy. -/
def save_user_last_search (tableConfigured : Bool) (userId? : Option String)
    (location cuisine email : String) : List Effect :=
  match userId? with
  | some uid =>
    if tableConfigured && uid ≠ "" && cuisine ≠ "" then
      [Effect.ddbPut (pyStrip uid)
        (pyLower (pyStrip (if location = "" then "manhattan" else location)))
        (pyLower (pyStrip cuisine))
        (if email = "" then none else some (pyLower (pyStrip email)))]
    else []
  | none => []

/-- The guarded completion transition shared by both hooks
(lines 260-264 and 295-299 of `LF1.py`): enqueue once per session
under the `requestEnqueued` flag, set the flag, snapshot user state. -/
def completeRequest (tableConfigured : Bool) (attrs : Attrs) (userId : Option String)
    (location cuisine date time people email : String) : Attrs × List Effect :=
  if attrGet attrs "requestEnqueued" ≠ some "1" then
    (setAttr attrs "requestEnqueued" "1",
      Effect.sqsSend location (pyLower cuisine) date time people email userId ::
        save_user_last_search tableConfigured userId location cuisine email)
  else (attrs, [])

/-- The six logical Request fields resolved from the slot map. -/
structure Resolved where
  location : Option String
  cuisine : Option String
  date : Option String
  time : Option String
  people : Option String
  email : Option String
deriving Repr, DecidableEq

def resolve (slots : Slots) : Resolved :=
  { location := get_slot_value_fuzzy slots
      ["Location", "DiningLocation", "City", "Area"] ["location", "city", "area"]
    cuisine := get_slot_value_fuzzy slots
      ["Cuisine", "DiningCuisine", "FoodType"] ["cuisine", "food"]
    date := get_slot_value_fuzzy slots ["DiningDate", "Date"] ["date"]
    time := get_slot_value_fuzzy slots ["DiningTime", "Time"] ["time"]
    people := get_slot_value_fuzzy slots
      ["NumberOfPeople", "PeopleCount", "PartySize"]
      ["people", "party", "count", "number"]
    email := get_slot_value_fuzzy slots ["Email", "email", "EmailAddress"]
      ["email", "mail"] }

/-- Python truthiness of a resolved slot value. -/
def truthy : Option String → Bool
  | some v => v ≠ ""
  | none => false

def allPresent (r : Resolved) : Bool :=
  truthy r.location && truthy r.cuisine && truthy r.date && truthy r.time &&
    truthy r.people && truthy r.email

def hasKey (slots : Slots) (k : String) : Bool :=
  slots.any (fun p => p.1 == k)

structure LexEvent where
  intentName : String
  slots : Slots
  sessionAttributes : Attrs
  invocationSource : String
deriving Repr, DecidableEq

def fulfilledMsg : String :=
  "You’re all set. Expect my suggestions shortly! I will notify you by email."

/-- Embedding of `lambda_handler` in `LF1.py`: the response plus the outbound
writes performed during the invocation. -/
def lambda_handler (tableConfigured : Bool) (ev : LexEvent) :
    DialogResult × List Effect :=
  let slots := ev.slots
  let attrs := ev.sessionAttributes
  let userId := get_user_id attrs
  if ev.intentName = "GreetingIntent" then
    (close ev.intentName "Hi there, how can I help?" "Fulfilled" slots [], [])
  else if ev.intentName = "ThankYouIntent" then
    (close ev.intentName "You’re welcome." "Fulfilled" slots [], [])
  else if ev.intentName = "DiningSuggestionsIntent" then
    let r := resolve slots
    if ev.invocationSource = "DialogCodeHook" then
      if truthy r.location &&
          !(ALLOWED_LOCATIONS.contains (pyLower (pyStrip (r.location.getD "")))) then
        (elicit_slot ev.intentName slots
          (if hasKey slots "Location" then "Location" else "DiningLocation")
          ("Sorry, I can\'t fulfill requests for " ++ r.location.getD "" ++
            ". Please enter a valid location in Manhattan.") attrs, [])
      else if truthy r.cuisine &&
          !(ALLOWED_CUISINES.contains (pyLower (pyStrip (r.cuisine.getD "")))) then
        (elicit_slot ev.intentName slots
          (if hasKey slots "Cuisine" then "Cuisine" else "DiningCuisine")
          ("Sorry, I currently support cuisines like chinese, japanese, italian," ++
            " mexican, american. What cuisine would you like?") attrs, [])
      else if truthy r.email && !(is_valid_email (r.email.getD "")) then
        (elicit_slot ev.intentName slots
          (if hasKey slots "Email" then "Email" else "email")
          "That email address looks invalid. Please provide a valid email address."
          attrs, [])
      else if !(allPresent r) then
        (delegate ev.intentName slots attrs, [])
      else
        let step := completeRequest tableConfigured attrs userId
          (r.location.getD "") (r.cuisine.getD "") (r.date.getD "")
          (r.time.getD "") (r.people.getD "") (r.email.getD "")
        (close ev.intentName fulfilledMsg "Fulfilled" slots step.1, step.2)
    else
      if !(allPresent r) then
        (close ev.intentName
          "I am missing some details for your dining request. Please try again."
          "Failed" slots attrs, [])
      else
        let step := completeRequest tableConfigured attrs userId
          (r.location.getD "") (r.cuisine.getD "") (r.date.getD "")
          (r.time.getD "") (r.people.getD "") (r.email.getD "")
        (close ev.intentName fulfilledMsg "Fulfilled" slots step.1, step.2)
  else
    (close ev.intentName "Sorry, I couldn\'t understand that." "Failed" slots [], [])

def isEnqueue : Effect → Bool
  | .sqsSend .. => true
  | _ => false

def countEnqueues (effects : List Effect) : Nat :=
  (effects.filter isEnqueue).length

/-- The user-state table: one record per `UserId`, last write wins. -/
structure UserRecord where
  lastLocation : String
  lastCuisine : String
  lastEmail : Option String
deriving Repr, DecidableEq

abbrev Store := List (String × UserRecord)

/-- Apply one outbound write to the table (`put_item` is an upsert;
the queue write does not touch the table). -/
def applyEffect (store : Store) : Effect → Store
  | .ddbPut uid loc cu em =>
    (uid, { lastLocation := loc, lastCuisine := cu, lastEmail := em }) ::
      store.filter (fun p => p.1 ≠ uid)
  | .sqsSend .. => store

/-- Run a sequence of Validator invocations against the table. -/
def runEvents (tableConfigured : Bool) : Store → List LexEvent → Store
  | store, [] => store
  | store, ev :: rest =>
    runEvents tableConfigured
      (((lambda_handler tableConfigured ev).2).foldl applyEffect store) rest

/-- An invocation that reaches the completion transition: the primary
intent, all six fields truthy, and (in the validation phase) the
three slot checks passing. -/
def completeValid (ev : LexEvent) : Bool :=
  ev.intentName == "DiningSuggestionsIntent" && allPresent (resolve ev.slots) &&
    (ev.invocationSource != "DialogCodeHook" ||
      (ALLOWED_LOCATIONS.contains (pyLower (pyStrip ((resolve ev.slots).location.getD ""))) &&
       ALLOWED_CUISINES.contains (pyLower (pyStrip ((resolve ev.slots).cuisine.getD ""))) &&
       is_valid_email ((resolve ev.slots).email.getD "")))

end LF1

namespace LF3

/-- The persisted user-state record as read back by LF3 (only the
fields it consults). -/
structure UserRecord where
  lastLocation : Option String
  lastCuisine : Option String
deriving Repr, DecidableEq

/-- External reads of LF3: the user-state lookup and the index query,
either of which may raise; the catalog reply; the randomness stream. -/
structure Env where
  lastSearch : Except Unit (Option UserRecord)
  searchHits : Except Unit (List (Option String))
  ddbItems : List LF2.Restaurant
  rand : Nat → Nat

/-- The invocation payload: a top-level `userId` and/or one inside the
`body` (already JSON-decoded; `none` also covers a malformed body,
whose decode error `extract_user_id` swallows). -/
structure Event where
  userIdField : Option String
  bodyUserId : Option String
deriving Repr, DecidableEq

def extractFromBody (ev : Event) : Option String :=
  match ev.bodyUserId with
  | some u => if u ≠ "" then some (pyStrip u) else none
  | none => none

/-- Embedding of `extract_user_id` in `LF3.py`. -/
def extract_user_id (ev : Event) : Option String :=
  match ev.userIdField with
  | some v => if v ≠ "" then some (pyStrip v) else extractFromBody ev
  | none => extractFromBody ev

structure Response where
  hasRecommendation : Bool
  message : String
  reason : Option String
  lastSearch : Option (String × String)
  restaurantCount : Option Nat
deriving Repr, DecidableEq

def noRec (reason : String) : Response :=
  { hasRecommendation := false, message := "", reason := some reason,
    lastSearch := none, restaurantCount := none }

def formatLine (idx : Nat) (r : LF2.Restaurant) : String :=
  toString idx ++ ". " ++ r.name.getD "Unknown" ++ ", located at " ++
    r.address.getD "N/A"

def formatLines : Nat → List LF2.Restaurant → List String
  | _, [] => []
  | idx, r :: rs => formatLine idx r :: formatLines (idx + 1) rs

/-- Python `"; ".join(lines)`. -/
def joinSemi : List String → String
  | [] => ""
  | [s] => s
  | s :: rest@(_ :: _) => s ++ "; " ++ joinSemi rest

def format_returning_user_message (location cuisine : String)
    (restaurants : List LF2.Restaurant) : String :=
  if restaurants.isEmpty then
    "Welcome back! Last time you searched for " ++ cuisine ++ " food in " ++
      location ++
      ". I couldn\'t find matches right now, but tell me a cuisine and I will search again."
  else
    "Welcome back! Based on your last search for " ++ cuisine ++ " food in " ++
      location ++ ", here are some recommendations: " ++
      joinSemi (formatLines 1 restaurants)

def MAX_RECOMMENDATIONS : Nat := 3
def SEARCH_POOL_SIZE : Nat := 20

/-- The LF3 copy of `search_restaurant_ids_by_cuisine`: blank cuisine short-
circuits to `[]` without a query; otherwise the index is queried (it
may raise) and the ids collected exactly as in LF2. -/
def search_restaurant_ids (hits : Except Unit (List (Option String)))
    (cuisine : String) : Except Unit (List String) :=
  let c := pyLower (pyStrip cuisine)
  if c = "" then .ok [] else hits.map LF2.collectIds

/-- Python `random.sample(ids, k=min(MAX_RECOMMENDATIONS, len(ids))) if ids
else []` with the default `MAX_RECOMMENDATIONS = 3`. -/
def chosenIds (rand : Nat → Nat) (ids : List String) : List String :=
  if ids.isEmpty then [] else randSample rand 0 ids (min MAX_RECOMMENDATIONS ids.length)

/-- Embedding of `lambda_handler` in `LF3.py`. Downstream read errors are not
caught here: they escape as `Except.error`. -/
def lambda_handler (env : Env) (ev : Event) : Except Unit Response :=
  match extract_user_id ev with
  | none => .ok (noRec "missing_user_id")
  | some uid =>
    if uid = "" then .ok (noRec "missing_user_id")
    else
      match env.lastSearch with
      | .error e => .error e
      | .ok none => .ok (noRec "no_last_search")
      | .ok (some rec) =>
        let lraw := rec.lastLocation.getD ""
        let location := pyLower (pyStrip (if lraw = "" then "manhattan" else lraw))
        let cuisine := pyLower (pyStrip (rec.lastCuisine.getD ""))
        if cuisine = "" then .ok (noRec "missing_last_cuisine")
        else
          match search_restaurant_ids env.searchHits cuisine with
          | .error e => .error e
          | .ok ids =>
            let chosen := chosenIds env.rand ids
            let restaurants := if chosen.isEmpty then [] else env.ddbItems
            let message := format_returning_user_message location cuisine restaurants
            .ok { hasRecommendation := true, message, reason := none,
                  lastSearch := some (location, cuisine),
                  restaurantCount := some restaurants.length }

end LF3

namespace Examples

/-- A complete, valid Validator event in the validation phase. -/
def evComplete : LF1.LexEvent :=
  { intentName := "DiningSuggestionsIntent"
    slots := [("Location", some "Manhattan"), ("Cuisine", some "Italian"),
              ("DiningDate", some "2024-06-01"), ("DiningTime", some "19:00"),
              ("NumberOfPeople", some "4"), ("Email", some "a@b.c")]
    sessionAttributes := [("userId", "u1")]
    invocationSource := "DialogCodeHook" }

def slotsBadCuisine : LF1.Slots :=
  [("Location", some "Manhattan"), ("Cuisine", some "Thai"),
   ("DiningDate", some "2024-06-01"), ("DiningTime", some "19:00"),
   ("NumberOfPeople", some "4"), ("Email", some "a@b.c")]

/-- Non-whitelisted cuisine, validation phase. -/
def evBadCuisineDialog : LF1.LexEvent :=
  { evComplete with slots := slotsBadCuisine }

/-- Non-whitelisted cuisine, fulfillment phase. -/
def evBadCuisineFulfill : LF1.LexEvent :=
  { evComplete with
    slots := slotsBadCuisine
    invocationSource := "FulfillmentCodeHook" }

def slotsBadEmail : LF1.Slots :=
  [("Location", some "Manhattan"), ("Cuisine", some "Italian"),
   ("DiningDate", some "2024-06-01"), ("DiningTime", some "19:00"),
   ("NumberOfPeople", some "4"), ("Email", some "not-an-email")]

/-- Invalid contact address, fulfillment phase. -/
def evBadEmailFulfill : LF1.LexEvent :=
  { evComplete with
    slots := slotsBadEmail
    invocationSource := "FulfillmentCodeHook" }

/-- Invalid contact address, validation phase. -/
def evBadEmailDialog : LF1.LexEvent :=
  { evComplete with slots := slotsBadEmail }

/-- A parseable queue message. -/
def okMsg : LF2.SqsMsg :=
  { body := some (.obj [("cuisine", "italian"), ("email", "a@b.c"),
      ("location", "manhattan"), ("date", "2024-06-01"), ("time", "19:00"),
      ("people", "4")])
    receipt := some "rh-1" }

def okReq : LF2.ParsedReq :=
  { cuisine := "italian", email := "a@b.c", location := "manhattan",
    date := "2024-06-01", time := "19:00", people := "4" }

/-- A poison queue message: the email field is missing. -/
def poisonMsg : LF2.SqsMsg :=
  { body := some (.obj [("cuisine", "italian")]), receipt := some "rh-2" }

/-- Worker environment whose mail channel rejects the send. -/
def envSendFail : LF2.Env :=
  { searchHits := [some "r1", some "r2"], ddbItems := [], sendOk := false,
    rand := fun _ => 0 }

/-- Worker environment with zero index hits and a healthy channel. -/
def envNoHits : LF2.Env :=
  { searchHits := [], ddbItems := [], sendOk := true, rand := fun _ => 0 }

/-- Recommender environment whose user-state read raises. -/
def lf3EnvReadFail : LF3.Env :=
  { lastSearch := .error (), searchHits := .ok [], ddbItems := [],
    rand := fun _ => 0 }

/-- Recommender environment with a stored record but a failing index. -/
def lf3EnvQueryFail : LF3.Env :=
  { lastSearch := .ok (some { lastLocation := some "manhattan"
                              lastCuisine := some "italian" })
    searchHits := .error ()
    ddbItems := []
    rand := fun _ => 0 }

def lf3Ev : LF3.Event := { userIdField := some "u1", bodyUserId := none }

end Examples

/-! Helper lemmas. -/

theorem randSample_length (rand : Nat → Nat) :
    ∀ (k : Nat) (step : Nat) (pop : List α),
      (randSample rand step pop k).length = min k pop.length := by
  intro k
  induction k with
  | zero => intro step pop; simp [randSample]
  | succ k ih =>
    intro step pop
    cases pop with
    | nil => simp [randSample]
    | cons a as =>
      simp only [randSample, List.length_cons]
      rw [ih, List.length_eraseIdx]
      simp only [List.length_cons]
      have h : rand step % (as.length + 1) < as.length + 1 :=
        Nat.mod_lt _ (Nat.succ_pos _)
      rw [if_pos h]
      omega

theorem randSample_subset (rand : Nat → Nat) :
    ∀ (k : Nat) (step : Nat) (pop : List α),
      ∀ x ∈ randSample rand step pop k, x ∈ pop := by
  intro k
  induction k with
  | zero => intro step pop x hx; simp [randSample] at hx
  | succ k ih =>
    intro step pop x hx
    cases pop with
    | nil => simp [randSample] at hx
    | cons a as =>
      simp only [randSample, List.mem_cons] at hx
      rcases hx with h | h
      · rw [h]; exact List.get_mem _ _ _
      · exact (List.eraseIdx_sublist (a :: as) _).subset (ih _ _ x h)

theorem get_not_mem_eraseIdx (l : List α) (i : Nat) (h : i < l.length)
    (hnd : l.Nodup) : l.get ⟨i, h⟩ ∉ l.eraseIdx i := by
  intro hmem
  rw [List.mem_eraseIdx_iff_getElem] at hmem
  obtain ⟨j, hj, hji, hval⟩ := hmem
  simp only [List.get_eq_getElem] at hval
  exact hji (hnd.getElem_inj_iff.mp hval)

theorem randSample_nodup (rand : Nat → Nat) :
    ∀ (k : Nat) (step : Nat) (pop : List α),
      pop.Nodup → (randSample rand step pop k).Nodup := by
  intro k
  induction k with
  | zero => intro step pop _; simp [randSample]
  | succ k ih =>
    intro step pop hnd
    cases pop with
    | nil => simp [randSample]
    | cons a as =>
      simp only [randSample, List.nodup_cons]
      refine ⟨fun hmem => ?_, ih _ _ (List.Nodup.sublist
        (List.eraseIdx_sublist (a :: as) _) hnd)⟩
      exact get_not_mem_eraseIdx (a :: as) _ _ hnd
        (randSample_subset rand k _ _ _ hmem)

theorem addHit_nodup (ids : List String) (rid? : Option String)
    (h : ids.Nodup) : (LF2.addHit ids rid?).Nodup := by
  cases rid? with
  | none => exact h
  | some rid =>
    simp only [LF2.addHit]
    split
    · next hc =>
      rw [Bool.and_eq_true] at hc
      have hrid : rid ∉ ids := by
        intro hm
        have hct : ids.contains rid = true :=
          List.contains_iff_exists_mem_beq.mpr ⟨rid, hm, by simp⟩
        rw [hct] at hc
        simp at hc
      simp [List.nodup_append, h, hrid]
    · exact h

theorem foldl_addHit_nodup :
    ∀ (hits : List (Option String)) (acc : List String),
      acc.Nodup → (hits.foldl LF2.addHit acc).Nodup := by
  intro hits
  induction hits with
  | nil => intro acc h; exact h
  | cons hit rest ih =>
    intro acc h
    exact ih _ (addHit_nodup _ _ h)

theorem collectIds_nodup (hits : List (Option String)) :
    (LF2.collectIds hits).Nodup :=
  foldl_addHit_nodup hits [] List.nodup_nil

theorem mem_search_fst (hits : List (Option String)) (c : String)
    (e : LF2.Effect) (h : e ∈ (LF2.search_restaurant_ids hits c).1) :
    ∃ cc, e = LF2.Effect.search cc := by
  unfold LF2.search_restaurant_ids at h
  split at h
  · simp at h
  · simp at h
    exact ⟨_, h⟩

theorem mem_batchget_fst (items : List LF2.Restaurant) (ids : List String)
    (e : LF2.Effect) (h : e ∈ (LF2.ddb_batch_get items ids).1) :
    ∃ l, e = LF2.Effect.batchGet l := by
  unfold LF2.ddb_batch_get at h
  split at h
  · simp at h
  · simp at h
    exact ⟨_, h⟩

theorem emailCore_false_of_no_at (cs : List Char) (h : ∀ c ∈ cs, c ≠ '@') :
    LF1.emailCore cs = false := by
  unfold LF1.emailCore
  have hnone : cs.findIdx? (fun c => c = '@') = none := by
    rw [List.findIdx?_eq_none_iff]
    intro x hx
    simpa using h x hx
  rw [hnone]

theorem emailCore_dot_mem (cs : List Char) (h : LF1.emailCore cs = true) :
    '.' ∈ cs := by
  unfold LF1.emailCore at h
  cases hidx : cs.findIdx? (fun c => c = '@') with
  | none => rw [hidx] at h; simp at h
  | some i =>
    rw [hidx] at h
    simp only [Bool.and_eq_true] at h
    obtain ⟨a, ha, hba⟩ := List.contains_iff_exists_mem_beq.mp h.2
    have hadot : a = '.' := by
      have := beq_iff_eq.mp hba
      exact this.symm
    rw [hadot] at ha
    have h1 : List.Sublist (((cs.drop (i + 1)).drop 1).dropLast) cs :=
      ((List.dropLast_sublist _).trans (List.drop_sublist _ _)).trans
        (List.drop_sublist _ _)
    exact h1.subset ha

theorem findIdx?_first_at (rest : List Char) :
    ∀ (a : List Char) (s : Nat), (∀ c ∈ a, c ≠ '@') →
      List.findIdx? (fun c => c = '@') (a ++ '@' :: rest) s = some (s + a.length) := by
  intro a
  induction a with
  | nil =>
    intro s _
    simp [List.findIdx?_cons]
  | cons b a ih =>
    intro s h
    have hb : ¬ (b = '@') := h b (by simp)
    rw [List.cons_append, List.findIdx?_cons, if_neg (by simpa using hb)]
    rw [ih (s + 1) (fun c hc => h c (by simp [hc]))]
    congr 1
    simp
    omega

theorem emailCore_false_of_no_domain_dot (a b : List Char)
    (hat : ∀ c ∈ a, c ≠ '@') (hdot : '.' ∉ (b.drop 1).dropLast) :
    LF1.emailCore (a ++ '@' :: b) = false := by
  unfold LF1.emailCore
  rw [findIdx?_first_at b a 0 hat]
  simp only [Nat.zero_add]
  have htake : (a ++ '@' :: b).take a.length = a := List.take_left' rfl
  have hdropb : (a ++ '@' :: b).drop (a.length + 1) = b := by
    rw [List.append_cons a '@' b]
    rw [List.drop_left' (by simp)]
  rw [htake, hdropb]
  have hcont : ((b.drop 1).dropLast).contains '.' = false := by
    cases hc : ((b.drop 1).dropLast).contains '.'
    · rfl
    · exfalso
      obtain ⟨x, hx, hbx⟩ := List.contains_iff_exists_mem_beq.mp hc
      have hxe : x = '.' := (beq_iff_eq.mp hbx).symm
      rw [hxe] at hx
      exact hdot hx
  rw [hcont]
  simp

theorem emailCore_of_shape (a m r : List Char)
    (ha : a ≠ []) (hm : m ≠ []) (hr : r ≠ [])
    (ha2 : ∀ c ∈ a, LF1.okEmailChar c = true)
    (hm2 : ∀ c ∈ m, LF1.okEmailChar c = true)
    (hr2 : ∀ c ∈ r, LF1.okEmailChar c = true) :
    LF1.emailCore (a ++ '@' :: (m ++ '.' :: r)) = true := by
  unfold LF1.emailCore
  have hat : ∀ c ∈ a, c ≠ '@' := by
    intro c hc
    have h2 := ha2 c hc
    unfold LF1.okEmailChar at h2
    rw [Bool.and_eq_true] at h2
    simpa using h2.2
  rw [findIdx?_first_at _ a 0 hat]
  simp only [Nat.zero_add]
  have htake : (a ++ '@' :: (m ++ '.' :: r)).take a.length = a := by
    rw [List.take_left' rfl]
  have hdrop : (a ++ '@' :: (m ++ '.' :: r)).drop (a.length + 1) = m ++ '.' :: r := by
    rw [List.append_cons a '@' (m ++ '.' :: r)]
    rw [List.drop_left' (by simp)]
  rw [htake, hdrop]
  obtain ⟨m0, m', rfl⟩ := List.exists_cons_of_ne_nil hm
  have hdot : '.' ∈ (((m0 :: m' ++ '.' :: r).drop 1).dropLast : List Char) := by
    simp only [List.cons_append, List.drop_succ_cons, List.drop_zero]
    rw [List.dropLast_append_cons, List.dropLast_cons_of_ne_nil hr]
    simp
  have hcont : ((((m0 :: m' ++ '.' :: r).drop 1).dropLast : List Char)).contains '.' = true :=
    List.contains_iff_exists_mem_beq.mpr ⟨'.', hdot, by simp⟩
  simp only [Bool.and_eq_true]
  refine ⟨⟨⟨⟨?_, ?_⟩, ?_⟩, ?_⟩, hcont⟩
  · simpa using ha
  · rw [List.all_eq_true]; exact ha2
  · simp
  · rw [List.all_eq_true]
    intro c hc
    simp only [List.cons_append, List.mem_cons, List.mem_append] at hc
    rcases hc with rfl | hc | rfl | hc
    · exact hm2 _ (by simp)
    · exact hm2 _ (by simp [hc])
    · decide
    · exact hr2 _ hc

theorem find?_map_setAttr (a : LF1.Attrs) (k v : String)
    (h : a.any (fun p => p.1 == k) = true) :
    List.find? (fun p => p.1 == k)
      (a.map (fun p => if p.1 == k then (k, v) else p)) = some (k, v) := by
  induction a with
  | nil => simp at h
  | cons q rest ih =>
    by_cases hk : q.1 == k
    · simp only [List.map_cons, if_pos hk]
      rw [List.find?_cons_of_pos _ (by simp)]
    · simp only [List.map_cons, if_neg hk]
      rw [List.find?_cons_of_neg
        (p := fun x : String × String => x.1 == k) (a := q) _ hk]
      apply ih
      rcases List.any_eq_true.mp h with ⟨x, hx, hpx⟩
      rcases List.mem_cons.mp hx with rfl | hx
      · exact absurd hpx hk
      · exact List.any_eq_true.mpr ⟨x, hx, hpx⟩

theorem attrGet_setAttr_self (a : LF1.Attrs) (k v : String) :
    LF1.attrGet (LF1.setAttr a k v) k = some v := by
  unfold LF1.setAttr LF1.attrGet
  split
  · next h => rw [find?_map_setAttr a k v h]; rfl
  · next h =>
    have hf : a.any (fun p => p.1 == k) = false := by
      cases hx : a.any (fun p => p.1 == k)
      · rfl
      · exact absurd hx h
    have hnone : List.find? (fun p => p.1 == k) a = none := by
      rw [List.find?_eq_none]
      intro x hx
      exact List.any_eq_false.mp hf x hx
    rw [List.find?_append, hnone]
    simp

theorem countEnqueues_save (cfg : Bool) (uid? : Option String) (l c e : String) :
    LF1.countEnqueues (LF1.save_user_last_search cfg uid? l c e) = 0 := by
  cases uid? with
  | none => rfl
  | some u =>
    simp only [LF1.save_user_last_search]
    split
    · rfl
    · rfl

theorem countEnqueues_cons_send (l c d t p e : String) (u : Option String)
    (rest : List LF1.Effect) :
    LF1.countEnqueues (LF1.Effect.sqsSend l c d t p e u :: rest) =
      LF1.countEnqueues rest + 1 := by
  simp [LF1.countEnqueues, LF1.isEnqueue, List.filter_cons]

theorem countEnqueues_complete (cfg : Bool) (attrs : LF1.Attrs)
    (uid : Option String) (l c d t p e : String) :
    LF1.countEnqueues (LF1.completeRequest cfg attrs uid l c d t p e).2 =
      (if LF1.attrGet attrs "requestEnqueued" ≠ some "1" then 1 else 0) := by
  unfold LF1.completeRequest
  split
  · next h =>
    show LF1.countEnqueues (LF1.Effect.sqsSend l (pyLower c) d t p e uid ::
      LF1.save_user_last_search cfg uid l c e) = 1
    rw [countEnqueues_cons_send, countEnqueues_save]
  · next h => rfl

theorem mem_save (cfg : Bool) (uid? : Option String) (l c e : String)
    (eff : LF1.Effect) (h : eff ∈ LF1.save_user_last_search cfg uid? l c e) :
    ∃ u, uid? = some u ∧ cfg = true ∧ u ≠ "" ∧ c ≠ "" ∧
      eff = LF1.Effect.ddbPut (pyStrip u)
        (pyLower (pyStrip (if l = "" then "manhattan" else l)))
        (pyLower (pyStrip c))
        (if e = "" then none else some (pyLower (pyStrip e))) := by
  cases uid? with
  | none => simp [LF1.save_user_last_search] at h
  | some u =>
    simp only [LF1.save_user_last_search] at h
    split at h
    · next hc =>
      simp only [Bool.and_eq_true, decide_eq_true_eq] at hc
      simp only [List.mem_singleton] at h
      exact ⟨u, rfl, hc.1.1, hc.1.2, hc.2, h⟩
    · simp at h

theorem mem_applyEffect (store : LF1.Store) (e : LF1.Effect)
    (p : String × LF1.UserRecord) (h : p ∈ LF1.applyEffect store e) :
    p ∈ store ∨ ∃ loc cu em, e = LF1.Effect.ddbPut p.1 loc cu em := by
  cases e with
  | sqsSend l c d t pp em u => exact .inl h
  | ddbPut uid loc cu em =>
    unfold LF1.applyEffect at h
    rcases List.mem_cons.mp h with h | h
    · right
      refine ⟨loc, cu, em, ?_⟩
      rw [h]
    · exact .inl ((List.filter_sublist _).subset h)

theorem mem_foldl_applyEffect :
    ∀ (effs : List LF1.Effect) (store : LF1.Store) (p : String × LF1.UserRecord),
      p ∈ effs.foldl LF1.applyEffect store →
      p ∈ store ∨ ∃ e ∈ effs, ∃ loc cu em, e = LF1.Effect.ddbPut p.1 loc cu em := by
  intro effs
  induction effs with
  | nil => intro store p h; exact .inl h
  | cons e rest ih =>
    intro store p h
    rcases ih _ _ h with h | ⟨e', he', hrest⟩
    · rcases mem_applyEffect _ _ _ h with h | ⟨loc, cu, em, he⟩
      · exact .inl h
      · exact .inr ⟨e, by simp, loc, cu, em, he⟩
    · exact .inr ⟨e', by simp [he'], hrest⟩

theorem mem_runEvents (cfg : Bool) :
    ∀ (evs : List LF1.LexEvent) (store : LF1.Store) (p : String × LF1.UserRecord),
      p ∈ LF1.runEvents cfg store evs →
      p ∈ store ∨ ∃ ev ∈ evs, ∃ loc cu em,
        LF1.Effect.ddbPut p.1 loc cu em ∈ (LF1.lambda_handler cfg ev).2 := by
  intro evs
  induction evs with
  | nil => intro store p h; exact .inl h
  | cons ev rest ih =>
    intro store p h
    rcases ih _ _ h with h | ⟨ev', hev', hstuff⟩
    · rcases mem_foldl_applyEffect _ _ _ h with h | ⟨e, he, loc, cu, em, hee⟩
      · exact .inl h
      · exact .inr ⟨ev, by simp, loc, cu, em, hee ▸ he⟩
    · exact .inr ⟨ev', by simp [hev'], hstuff⟩

theorem handler_effects_shape (cfg : Bool) (ev : LF1.LexEvent) :
    (LF1.lambda_handler cfg ev).2 = [] ∨
    ((LF1.lambda_handler cfg ev).2 =
        (LF1.completeRequest cfg ev.sessionAttributes
          (LF1.get_user_id ev.sessionAttributes)
          ((LF1.resolve ev.slots).location.getD "")
          ((LF1.resolve ev.slots).cuisine.getD "")
          ((LF1.resolve ev.slots).date.getD "")
          ((LF1.resolve ev.slots).time.getD "")
          ((LF1.resolve ev.slots).people.getD "")
          ((LF1.resolve ev.slots).email.getD "")).2 ∧
      (LF1.lambda_handler cfg ev).1 =
        LF1.close ev.intentName LF1.fulfilledMsg "Fulfilled" ev.slots
          (LF1.completeRequest cfg ev.sessionAttributes
            (LF1.get_user_id ev.sessionAttributes)
            ((LF1.resolve ev.slots).location.getD "")
            ((LF1.resolve ev.slots).cuisine.getD "")
            ((LF1.resolve ev.slots).date.getD "")
            ((LF1.resolve ev.slots).time.getD "")
            ((LF1.resolve ev.slots).people.getD "")
            ((LF1.resolve ev.slots).email.getD "")).1 ∧
      LF1.allPresent (LF1.resolve ev.slots) = true) := by
  simp only [LF1.lambda_handler]
  split_ifs <;>
    first
      | exact .inl rfl
      | (right
         refine ⟨rfl, rfl, ?_⟩
         simp_all)

theorem handler_complete (cfg : Bool) (ev : LF1.LexEvent)
    (hcv : LF1.completeValid ev = true) :
    LF1.lambda_handler cfg ev =
      (LF1.close ev.intentName LF1.fulfilledMsg "Fulfilled" ev.slots
        (LF1.completeRequest cfg ev.sessionAttributes
          (LF1.get_user_id ev.sessionAttributes)
          ((LF1.resolve ev.slots).location.getD "")
          ((LF1.resolve ev.slots).cuisine.getD "")
          ((LF1.resolve ev.slots).date.getD "")
          ((LF1.resolve ev.slots).time.getD "")
          ((LF1.resolve ev.slots).people.getD "")
          ((LF1.resolve ev.slots).email.getD "")).1,
       (LF1.completeRequest cfg ev.sessionAttributes
          (LF1.get_user_id ev.sessionAttributes)
          ((LF1.resolve ev.slots).location.getD "")
          ((LF1.resolve ev.slots).cuisine.getD "")
          ((LF1.resolve ev.slots).date.getD "")
          ((LF1.resolve ev.slots).time.getD "")
          ((LF1.resolve ev.slots).people.getD "")
          ((LF1.resolve ev.slots).email.getD "")).2) := by
  simp only [LF1.completeValid, Bool.and_eq_true, Bool.or_eq_true, beq_iff_eq,
    bne_iff_ne, ne_eq] at hcv
  obtain ⟨⟨hintent, hall⟩, hrest⟩ := hcv
  simp only [LF1.lambda_handler]
  rw [hintent]
  by_cases hsrc : ev.invocationSource = "DialogCodeHook"
  · rcases hrest with hne | ⟨⟨hloc, hcui⟩, hem⟩
    · exact absurd hsrc hne
    · have hloc2 : pyLower (pyStrip ((LF1.resolve ev.slots).location.getD "")) ∈
          LF1.ALLOWED_LOCATIONS := by simpa using hloc
      have hcui2 : pyLower (pyStrip ((LF1.resolve ev.slots).cuisine.getD "")) ∈
          LF1.ALLOWED_CUISINES := by simpa using hcui
      simp [hsrc, hall, hloc2, hcui2, hem]
  · simp [hsrc, hall]

theorem mem_last_of_append {α : Type} (E1 E2 D : List α) (s x : α)
    (hx : x ∈ E1 ++ E2 ++ [s] ++ D) (h1 : x ∉ E1) (h2 : x ∉ E2) (h3 : x ≠ s) :
    ∃ pre post, E1 ++ E2 ++ [s] ++ D = pre ++ s :: post ∧ x ∈ post := by
  refine ⟨E1 ++ E2, D, by simp, ?_⟩
  simp only [List.append_assoc, List.mem_append, List.mem_singleton] at hx
  rcases hx with h | h | h | h
  · exact absurd h h1
  · exact absurd h h2
  · exact absurd h h3
  · exact h

/-! Claim theorems. -/

/-- C5: for every Candidate Set produced by the index query (its hit
list), the Chosen Set sampled by the Fulfillment Worker has size
exactly `min 3 |CandidateSet|`, contains no duplicates, every chosen
identifier is an element of the Candidate Set, and the Returning-User
Recommender (at its default limit of 3) samples identically. -/
theorem c5_sampling_bound (rand : Nat → Nat) (hits : List (Option String)) :
    (LF2.chosenIds rand (LF2.collectIds hits)).length =
        min 3 (LF2.collectIds hits).length ∧
    (LF2.chosenIds rand (LF2.collectIds hits)).Nodup ∧
    (∀ x ∈ LF2.chosenIds rand (LF2.collectIds hits), x ∈ LF2.collectIds hits) ∧
    LF3.chosenIds rand (LF2.collectIds hits) =
      LF2.chosenIds rand (LF2.collectIds hits) := by
  refine ⟨?_, ?_, ?_, rfl⟩
  · unfold LF2.chosenIds
    split
    · next h =>
      rw [List.isEmpty_iff] at h
      simp [h]
    · rw [randSample_length]
      omega
  · unfold LF2.chosenIds
    split
    · simp
    · exact randSample_nodup _ _ _ _ (collectIds_nodup hits)
  · intro x hx
    unfold LF2.chosenIds at hx
    split at hx
    · simp at hx
    · exact randSample_subset _ _ _ _ x hx

/-- C10: a queue-message body whose alias resolution yields a present
(non-blank) cuisine and email is accepted by the parser even when
location, date, time or people are missing; a missing location
defaults to "manhattan", missing date, time and people to the empty
string, and cuisine and location are stripped and lower-cased. -/
theorem c10_parser_defaults (fields : List (String × String)) (c e : String)
    (hc : LF2.resolveAlias fields LF2.cuisineAliases = some c)
    (he : LF2.resolveAlias fields LF2.emailAliases = some e) :
    ∃ req, LF2.parse_sqs_body (LF2.Body.obj fields) = .ok req ∧
      req.cuisine = pyLower (pyStrip c) ∧
      req.email = pyStrip e ∧
      (LF2.resolveAlias fields LF2.locationAliases = none →
        req.location = "manhattan") ∧
      (∀ l, LF2.resolveAlias fields LF2.locationAliases = some l →
        req.location = pyLower (pyStrip l)) ∧
      (LF2.resolveAlias fields LF2.dateAliases = none → req.date = "") ∧
      (LF2.resolveAlias fields LF2.timeAliases = none → req.time = "") ∧
      (LF2.resolveAlias fields LF2.peopleAliases = none → req.people = "") := by
  simp only [LF2.parse_sqs_body]
  rw [hc, he]
  refine ⟨_, rfl, rfl, rfl, ?_, ?_, ?_, ?_, ?_⟩
  · intro h; simp only [h]; rfl
  · intro l h; simp only [h]; rfl
  · intro h; simp only [h]; rfl
  · intro h; simp only [h]; rfl
  · intro h; simp only [h]; rfl

/-- C10 witness at a concrete two-field body. -/
theorem c10_parser_defaults_witness :
    ∃ req, LF2.parse_sqs_body
        (LF2.Body.obj [("Cuisine", " Italian "), ("email", "a@b.c")]) = .ok req ∧
      req.cuisine = "italian" ∧ req.email = "a@b.c" ∧
      req.location = "manhattan" ∧ req.date = "" ∧ req.time = "" ∧
      req.people = "" := by
  obtain ⟨req, hok, hcu, hem, hloc, _, hd, ht, hp⟩ :=
    c10_parser_defaults [("Cuisine", " Italian "), ("email", "a@b.c")]
      " Italian " "a@b.c" (by decide) (by decide)
  refine ⟨req, hok, ?_, ?_, ?_, ?_, ?_, ?_⟩
  · rw [hcu]; decide
  · rw [hem]; decide
  · exact hloc (by decide)
  · exact hd (by decide)
  · exact ht (by decide)
  · exact hp (by decide)

/-- C3: a Queue Message that is unparseable, or that is missing
cuisine or email after alias resolution, is disposed of as poison:
processing reports success (so the batch summary counts it as
processed, not failed), no notification send is ever attempted for
it, and in poll mode it is deleted from the queue without retry. -/
theorem c3_poison_disposal (env : LF2.Env) (msg : LF2.SqsMsg) (sd : Bool)
    (hbad : msg.body.getD (LF2.Body.obj []) = LF2.Body.malformed ∨
      ∃ fields, msg.body.getD (LF2.Body.obj []) = LF2.Body.obj fields ∧
        (LF2.resolveAlias fields LF2.cuisineAliases = none ∨
         LF2.resolveAlias fields LF2.emailAliases = none)) :
    (LF2.process_one_message env msg sd).result = .ok true ∧
    (∀ t s b, LF2.Effect.sesSend t s b ∉
      (LF2.process_one_message env msg sd).effects) ∧
    (∀ r, sd = true → msg.receipt = some r →
      LF2.Effect.sqsDelete r ∈ (LF2.process_one_message env msg sd).effects) ∧
    (∀ acc, LF2.batchStep sd acc (env, msg) =
      { acc with processed := acc.processed + 1 }) := by
  have herr : ∃ m, LF2.parse_sqs_body (msg.body.getD (LF2.Body.obj [])) = .error m := by
    rcases hbad with h | ⟨fields, hf, hmiss⟩
    · rw [h]; exact ⟨_, rfl⟩
    · rw [hf]
      simp only [LF2.parse_sqs_body]
      rcases hmiss with h | h
      · rw [h]; exact ⟨_, rfl⟩
      · rw [h]
        cases hcu : LF2.resolveAlias fields LF2.cuisineAliases
        · exact ⟨_, rfl⟩
        · exact ⟨_, rfl⟩
  obtain ⟨m, hm⟩ := herr
  refine ⟨?_, ?_, ?_, ?_⟩
  · simp [LF2.process_one_message, hm]
  · intro t s b
    simp only [LF2.process_one_message, hm]
    cases sd <;> cases hr : msg.receipt <;> simp
  · intro r hsd hr
    simp [LF2.process_one_message, hm, hsd, hr]
  · intro acc
    simp [LF2.batchStep, LF2.process_one_message, hm]

/-- C3 witness: a message missing the email field, in poll mode. -/
theorem c3_poison_disposal_witness :
    (LF2.process_one_message Examples.envNoHits Examples.poisonMsg true).result =
      .ok true ∧
    (∀ t s b, LF2.Effect.sesSend t s b ∉
      (LF2.process_one_message Examples.envNoHits Examples.poisonMsg true).effects) ∧
    LF2.Effect.sqsDelete "rh-2" ∈
      (LF2.process_one_message Examples.envNoHits Examples.poisonMsg true).effects := by
  have h := c3_poison_disposal Examples.envNoHits Examples.poisonMsg true
    (.inr ⟨[("cuisine", "italian")], rfl, .inr (by decide)⟩)
  exact ⟨h.1, h.2.1, h.2.2.1 "rh-2" rfl rfl⟩

/-- C8: a well-formed queue message whose cuisine query yields zero
candidate identifiers still gets a notification whose body is the
apology text echoing the request parameters, processing succeeds, and
in poll mode the message is still deleted afterwards. -/
theorem c8_zero_candidates_apology (env : LF2.Env) (msg : LF2.SqsMsg) (sd : Bool)
    (req : LF2.ParsedReq)
    (hparse : LF2.parse_sqs_body (msg.body.getD (LF2.Body.obj [])) = .ok req)
    (hzero : LF2.collectIds env.searchHits = [])
    (hsend : env.sendOk = true) :
    (LF2.process_one_message env msg sd).result = .ok true ∧
    LF2.Effect.sesSend req.email "Your Dining Concierge Recommendations"
      ("Hello!\n\nHere are your dining request details:\n- Cuisine: " ++ req.cuisine ++
       "\n- Location: " ++ req.location ++ "\n- Date: " ++ req.date ++
       "\n- Time: " ++ req.time ++ "\n- Number of people: " ++ req.people ++
       "\n\nSorry, we could not find matching restaurants at the moment.\n" ++
       "Please try another cuisine or try again later.\n\nBest,\nDining Concierge Bot\n")
      ∈ (LF2.process_one_message env msg sd).effects ∧
    (∀ r, sd = true → msg.receipt = some r →
      LF2.Effect.sqsDelete r ∈ (LF2.process_one_message env msg sd).effects) := by
  have hids : (LF2.search_restaurant_ids env.searchHits req.cuisine).2 = [] := by
    unfold LF2.search_restaurant_ids
    split <;> simp [hzero]
  refine ⟨?_, ?_, ?_⟩
  · simp [LF2.process_one_message, hparse, hsend]
  · simp only [LF2.process_one_message, hparse, hids, hsend, if_true]
    simp [LF2.chosenIds, LF2.ddb_batch_get, LF2.format_email]
  · intro r hsd hr
    simp only [LF2.process_one_message, hparse, hsend, if_true, hsd, hr]
    simp

/-- C8 witness: a concrete request with an empty index result. -/
theorem c8_zero_candidates_apology_witness :
    (LF2.process_one_message Examples.envNoHits Examples.okMsg true).result =
      .ok true ∧
    LF2.Effect.sesSend "a@b.c" "Your Dining Concierge Recommendations"
      ("Hello!\n\nHere are your dining request details:\n- Cuisine: " ++ "italian" ++
       "\n- Location: " ++ "manhattan" ++ "\n- Date: " ++ "2024-06-01" ++
       "\n- Time: " ++ "19:00" ++ "\n- Number of people: " ++ "4" ++
       "\n\nSorry, we could not find matching restaurants at the moment.\n" ++
       "Please try another cuisine or try again later.\n\nBest,\nDining Concierge Bot\n")
      ∈ (LF2.process_one_message Examples.envNoHits Examples.okMsg true).effects ∧
    LF2.Effect.sqsDelete "rh-1" ∈
      (LF2.process_one_message Examples.envNoHits Examples.okMsg true).effects := by
  have h := c8_zero_candidates_apology Examples.envNoHits Examples.okMsg true
    Examples.okReq rfl rfl rfl
  exact ⟨h.1, h.2.1, h.2.2 "rh-1" rfl rfl⟩

/-- C1: for a message that reaches the notification stage (its body
parses), a rejected send propagates as a raised error and the queue
delete call is never made, so the message stays on the queue; a
delete appears in the effect trace only when the send succeeded, and
then only at a position after the send. -/
theorem c1_ack_never_precedes_delivery (env : LF2.Env) (msg : LF2.SqsMsg)
    (sd : Bool) (req : LF2.ParsedReq)
    (hparse : LF2.parse_sqs_body (msg.body.getD (LF2.Body.obj [])) = .ok req) :
    (env.sendOk = false →
      (LF2.process_one_message env msg sd).result = .error .clientError ∧
      ∀ r, LF2.Effect.sqsDelete r ∉ (LF2.process_one_message env msg sd).effects) ∧
    (∀ r, LF2.Effect.sqsDelete r ∈ (LF2.process_one_message env msg sd).effects →
      env.sendOk = true ∧
      ∃ pre post sub bod,
        (LF2.process_one_message env msg sd).effects =
          pre ++ LF2.Effect.sesSend req.email sub bod :: post ∧
        LF2.Effect.sqsDelete r ∈ post) := by
  cases hOk : env.sendOk
  · constructor
    · intro _
      constructor
      · simp [LF2.process_one_message, hparse, hOk]
      · intro r hr
        simp only [LF2.process_one_message, hparse, hOk, Bool.false_eq_true,
          if_false] at hr
        simp only [List.append_assoc, List.mem_append, List.mem_singleton] at hr
        rcases hr with hr | hr | hr
        · obtain ⟨cc, hcc⟩ := mem_search_fst _ _ _ hr
          exact LF2.Effect.noConfusion hcc
        · obtain ⟨l, hl⟩ := mem_batchget_fst _ _ _ hr
          exact LF2.Effect.noConfusion hl
        · exact LF2.Effect.noConfusion hr
    · intro r hr
      exfalso
      simp only [LF2.process_one_message, hparse, hOk, Bool.false_eq_true,
        if_false] at hr
      simp only [List.append_assoc, List.mem_append, List.mem_singleton] at hr
      rcases hr with hr | hr | hr
      · obtain ⟨cc, hcc⟩ := mem_search_fst _ _ _ hr
        exact LF2.Effect.noConfusion hcc
      · obtain ⟨l, hl⟩ := mem_batchget_fst _ _ _ hr
        exact LF2.Effect.noConfusion hl
      · exact LF2.Effect.noConfusion hr
  · constructor
    · intro h
      exact absurd h (by simp)
    · intro r hr
      refine ⟨rfl, ?_⟩
      simp only [LF2.process_one_message, hparse, hOk, if_true] at hr ⊢
      obtain ⟨pre, post, heq, hpost⟩ := mem_last_of_append _ _ _ _ _ hr
        (fun hm => by
          obtain ⟨cc, hcc⟩ := mem_search_fst _ _ _ hm
          exact LF2.Effect.noConfusion hcc)
        (fun hm => by
          obtain ⟨l, hl⟩ := mem_batchget_fst _ _ _ hm
          exact LF2.Effect.noConfusion hl)
        (fun hEq => LF2.Effect.noConfusion hEq)
      exact ⟨pre, post, _, _, heq, hpost⟩

/-- C1 witness: a rejected send on a parseable message yields an
error and no delete call. -/
theorem c1_ack_never_precedes_delivery_witness :
    (LF2.process_one_message Examples.envSendFail Examples.okMsg true).result =
      .error .clientError ∧
    ∀ r, LF2.Effect.sqsDelete r ∉
      (LF2.process_one_message Examples.envSendFail Examples.okMsg true).effects :=
  (c1_ack_never_precedes_delivery Examples.envSendFail Examples.okMsg true
    Examples.okReq rfl).1 rfl

/-- C7 counterexample: with a failing user-state read, the
Returning-User Recommender raises (the error escapes its handler)
instead of returning a degraded hasRecommendation-false response. -/
theorem c7_counterexample :
    LF3.lambda_handler Examples.lf3EnvReadFail Examples.lf3Ev = .error () ∧
    ∀ resp : LF3.Response,
      LF3.lambda_handler Examples.lf3EnvReadFail Examples.lf3Ev ≠ .ok resp := by
  have h0 : LF3.lambda_handler Examples.lf3EnvReadFail Examples.lf3Ev =
      .error () := rfl
  refine ⟨h0, fun resp hresp => ?_⟩
  rw [h0] at hresp
  exact Except.noConfusion hresp

/-- C7 (amended): the no-data paths degrade to a
hasRecommendation-false result with the matching reason
(missing_user_id, no_last_search, missing_last_cuisine), but an
exception raised by the user-state read or by the index query
propagates out of the handler instead of degrading. -/
theorem c7_amended_degradation (env : LF3.Env) (ev : LF3.Event) :
    ((LF3.extract_user_id ev = none ∨ LF3.extract_user_id ev = some "") →
      LF3.lambda_handler env ev = .ok (LF3.noRec "missing_user_id")) ∧
    (∀ u, LF3.extract_user_id ev = some u → u ≠ "" →
      env.lastSearch = .ok none →
      LF3.lambda_handler env ev = .ok (LF3.noRec "no_last_search")) ∧
    (∀ u rec, LF3.extract_user_id ev = some u → u ≠ "" →
      env.lastSearch = .ok (some rec) →
      pyLower (pyStrip (rec.lastCuisine.getD "")) = "" →
      LF3.lambda_handler env ev = .ok (LF3.noRec "missing_last_cuisine")) ∧
    (∀ u, LF3.extract_user_id ev = some u → u ≠ "" →
      env.lastSearch = .error () →
      LF3.lambda_handler env ev = .error ()) ∧
    (∀ u rec, LF3.extract_user_id ev = some u → u ≠ "" →
      env.lastSearch = .ok (some rec) →
      pyLower (pyStrip (rec.lastCuisine.getD "")) ≠ "" →
      LF3.search_restaurant_ids env.searchHits
        (pyLower (pyStrip (rec.lastCuisine.getD ""))) = .error () →
      LF3.lambda_handler env ev = .error ()) := by
  refine ⟨?_, ?_, ?_, ?_, ?_⟩
  · intro h
    unfold LF3.lambda_handler
    rcases h with h | h
    · simp [h]
    · simp [h]
  · intro u hu hne hls
    unfold LF3.lambda_handler
    rw [hu, hls]
    simp [hne]
  · intro u rec hu hne hls hcu
    unfold LF3.lambda_handler
    rw [hu, hls]
    simp [hne, hcu]
  · intro u hu hne hls
    unfold LF3.lambda_handler
    rw [hu, hls]
    simp [hne]
  · intro u rec hu hne hls hcu hq
    unfold LF3.lambda_handler
    rw [hu, hls]
    simp [hne, hcu, hq]

/-- C7 witness: the three shapes at concrete inputs. -/
theorem c7_amended_degradation_witness :
    LF3.lambda_handler { Examples.lf3EnvReadFail with lastSearch := .ok none }
      Examples.lf3Ev = .ok (LF3.noRec "no_last_search") ∧
    LF3.lambda_handler Examples.lf3EnvReadFail Examples.lf3Ev = .error () ∧
    LF3.lambda_handler Examples.lf3EnvQueryFail Examples.lf3Ev = .error () := by
  refine ⟨?_, ?_, ?_⟩
  · exact (c7_amended_degradation _ _).2.1 "u1" rfl (by decide) rfl
  · exact (c7_amended_degradation _ _).2.2.2.1 "u1" rfl (by decide) rfl
  · exact (c7_amended_degradation _ _).2.2.2.2 "u1"
      { lastLocation := some "manhattan", lastCuisine := some "italian" }
      rfl (by decide) rfl (by decide) rfl

/-- C2: with requestEnqueued already set to "1" no queue write occurs
in any invocation, and on an otherwise-complete valid session with
the flag not yet set, a first invocation enqueues exactly once and an
immediate second invocation carrying the returned session attributes
enqueues zero times. -/
theorem c2_idempotent_enqueue (cfg : Bool) (ev : LF1.LexEvent) :
    (LF1.attrGet ev.sessionAttributes "requestEnqueued" = some "1" →
      LF1.countEnqueues (LF1.lambda_handler cfg ev).2 = 0) ∧
    (LF1.completeValid ev = true →
      LF1.attrGet ev.sessionAttributes "requestEnqueued" ≠ some "1" →
      LF1.countEnqueues (LF1.lambda_handler cfg ev).2 = 1 ∧
      LF1.countEnqueues (LF1.lambda_handler cfg
        { ev with sessionAttributes :=
            (LF1.lambda_handler cfg ev).1.sessionAttributes }).2 = 0) := by
  constructor
  · intro hflag
    rcases handler_effects_shape cfg ev with h | ⟨h, _, _⟩
    · rw [h]; rfl
    · rw [h, countEnqueues_complete]
      rw [if_neg (by simp [hflag])]
  · intro hcv hflag
    have h1 := handler_complete cfg ev hcv
    have hfirst : LF1.countEnqueues (LF1.lambda_handler cfg ev).2 = 1 := by
      rw [h1]
      show LF1.countEnqueues (LF1.completeRequest cfg ev.sessionAttributes
        (LF1.get_user_id ev.sessionAttributes)
        ((LF1.resolve ev.slots).location.getD "")
        ((LF1.resolve ev.slots).cuisine.getD "")
        ((LF1.resolve ev.slots).date.getD "")
        ((LF1.resolve ev.slots).time.getD "")
        ((LF1.resolve ev.slots).people.getD "")
        ((LF1.resolve ev.slots).email.getD "")).2 = 1
      rw [countEnqueues_complete, if_pos hflag]
    refine ⟨hfirst, ?_⟩
    have hattr2 : LF1.attrGet (LF1.lambda_handler cfg ev).1.sessionAttributes
        "requestEnqueued" = some "1" := by
      rw [h1]
      show LF1.attrGet (LF1.completeRequest cfg ev.sessionAttributes
        (LF1.get_user_id ev.sessionAttributes)
        ((LF1.resolve ev.slots).location.getD "")
        ((LF1.resolve ev.slots).cuisine.getD "")
        ((LF1.resolve ev.slots).date.getD "")
        ((LF1.resolve ev.slots).time.getD "")
        ((LF1.resolve ev.slots).people.getD "")
        ((LF1.resolve ev.slots).email.getD "")).1 "requestEnqueued" = some "1"
      unfold LF1.completeRequest
      rw [if_pos hflag]
      exact attrGet_setAttr_self _ _ _
    have hcv2 : LF1.completeValid { ev with sessionAttributes :=
        (LF1.lambda_handler cfg ev).1.sessionAttributes } = true := hcv
    have h2 := handler_complete cfg { ev with sessionAttributes :=
        (LF1.lambda_handler cfg ev).1.sessionAttributes } hcv2
    rw [h2]
    show LF1.countEnqueues (LF1.completeRequest cfg
      (LF1.lambda_handler cfg ev).1.sessionAttributes
      (LF1.get_user_id (LF1.lambda_handler cfg ev).1.sessionAttributes)
      ((LF1.resolve ev.slots).location.getD "")
      ((LF1.resolve ev.slots).cuisine.getD "")
      ((LF1.resolve ev.slots).date.getD "")
      ((LF1.resolve ev.slots).time.getD "")
      ((LF1.resolve ev.slots).people.getD "")
      ((LF1.resolve ev.slots).email.getD "")).2 = 0
    rw [countEnqueues_complete]
    rw [if_neg (by simp [hattr2])]

/-- C2 witness: a concrete complete session run twice. -/
theorem c2_idempotent_enqueue_witness :
    LF1.completeValid Examples.evComplete = true ∧
    LF1.attrGet Examples.evComplete.sessionAttributes "requestEnqueued" ≠
      some "1" ∧
    LF1.countEnqueues (LF1.lambda_handler true Examples.evComplete).2 = 1 ∧
    LF1.countEnqueues (LF1.lambda_handler true
      { Examples.evComplete with sessionAttributes :=
          (LF1.lambda_handler true Examples.evComplete).1.sessionAttributes }).2 =
      0 := by
  have h := (c2_idempotent_enqueue true Examples.evComplete).2 (by decide)
    (by decide)
  exact ⟨by decide, by decide, h.1, h.2⟩

/-- C4 counterexample: a fulfillment-phase invocation with a present,
non-whitelisted cuisine does not re-elicit the cuisine slot; it
enqueues and closes Fulfilled, so the claim fails as stated. -/
theorem c4_counterexample :
    LF1.truthy (LF1.resolve Examples.evBadCuisineFulfill.slots).cuisine = true ∧
    LF1.ALLOWED_CUISINES.contains (pyLower (pyStrip
      ((LF1.resolve Examples.evBadCuisineFulfill.slots).cuisine.getD ""))) =
      false ∧
    (LF1.lambda_handler true Examples.evBadCuisineFulfill).1.actionType =
      "Close" ∧
    (LF1.lambda_handler true Examples.evBadCuisineFulfill).1.intentState =
      "Fulfilled" ∧
    LF1.countEnqueues (LF1.lambda_handler true Examples.evBadCuisineFulfill).2 =
      1 := by
  exact ⟨by decide, by decide, by decide, by decide, by decide⟩

/-- C4 (amended): in a validation-phase (DialogCodeHook) invocation
of the primary intent where the cuisine slot is present but not
whitelisted and the location check does not fire first (location
absent or whitelisted), the Validator returns an ElicitSlot directive
targeting the cuisine slot, performs no outbound write, and does not
close Fulfilled; in the fulfillment phase the whitelist is not
re-checked. -/
theorem c4_amended_cuisine_reelicit (cfg : Bool) (ev : LF1.LexEvent)
    (hintent : ev.intentName = "DiningSuggestionsIntent")
    (hsrc : ev.invocationSource = "DialogCodeHook")
    (hcu : LF1.truthy (LF1.resolve ev.slots).cuisine = true)
    (hcw : LF1.ALLOWED_CUISINES.contains (pyLower (pyStrip
      ((LF1.resolve ev.slots).cuisine.getD ""))) = false)
    (hloc : LF1.truthy (LF1.resolve ev.slots).location = false ∨
      LF1.ALLOWED_LOCATIONS.contains (pyLower (pyStrip
        ((LF1.resolve ev.slots).location.getD ""))) = true) :
    (LF1.lambda_handler cfg ev).1.actionType = "ElicitSlot" ∧
    (LF1.lambda_handler cfg ev).1.slotToElicit =
      some (if LF1.hasKey ev.slots "Cuisine" then "Cuisine"
            else "DiningCuisine") ∧
    (LF1.lambda_handler cfg ev).1.intentState = "InProgress" ∧
    (LF1.lambda_handler cfg ev).2 = [] := by
  simp only [LF1.lambda_handler]
  rw [hintent]
  have hlocP : ¬ (LF1.truthy (LF1.resolve ev.slots).location = true ∧
      pyLower (pyStrip ((LF1.resolve ev.slots).location.getD "")) ∉
        LF1.ALLOWED_LOCATIONS) := by
    rcases hloc with h | h
    · rintro ⟨h1, -⟩; rw [h] at h1; exact Bool.noConfusion h1
    · rintro ⟨-, h2⟩; exact h2 (by simpa using h)
  have hcw2 : pyLower (pyStrip ((LF1.resolve ev.slots).cuisine.getD "")) ∉
      LF1.ALLOWED_CUISINES := by simpa using hcw
  simp [hsrc, hlocP, hcu, hcw2, LF1.elicit_slot]

/-- C4 witness: validation phase, cuisine Thai, valid location. -/
theorem c4_amended_cuisine_reelicit_witness :
    (LF1.lambda_handler true Examples.evBadCuisineDialog).1.actionType =
      "ElicitSlot" ∧
    (LF1.lambda_handler true Examples.evBadCuisineDialog).1.slotToElicit =
      some "Cuisine" ∧
    (LF1.lambda_handler true Examples.evBadCuisineDialog).1.intentState =
      "InProgress" ∧
    (LF1.lambda_handler true Examples.evBadCuisineDialog).2 = [] := by
  have h := c4_amended_cuisine_reelicit true Examples.evBadCuisineDialog rfl rfl
    (by decide) (by decide) (.inr (by decide))
  refine ⟨h.1, ?_, h.2.2.1, h.2.2.2⟩
  rw [h.2.1]
  decide

theorem handler_elicit_shape (cfg : Bool) (ev : LF1.LexEvent) :
    (LF1.lambda_handler cfg ev).1.slotToElicit = none ∨
    (LF1.lambda_handler cfg ev).1.slotToElicit = some "Location" ∨
    (LF1.lambda_handler cfg ev).1.slotToElicit = some "DiningLocation" ∨
    (LF1.lambda_handler cfg ev).1.slotToElicit = some "Cuisine" ∨
    (LF1.lambda_handler cfg ev).1.slotToElicit = some "DiningCuisine" ∨
    (((LF1.lambda_handler cfg ev).1.slotToElicit = some "Email" ∨
      (LF1.lambda_handler cfg ev).1.slotToElicit = some "email") ∧
      LF1.is_valid_email ((LF1.resolve ev.slots).email.getD "") = false) := by
  simp only [LF1.lambda_handler]
  split_ifs <;>
    first
      | exact .inl rfl
      | simp_all [LF1.elicit_slot]

/-- C6 counterexample: a fulfillment-phase invocation with a present,
syntactically invalid contact address does not re-elicit it; it
closes Fulfilled with no ElicitSlot directive, so the claim fails as
stated. -/
theorem c6_counterexample :
    LF1.truthy (LF1.resolve Examples.evBadEmailFulfill.slots).email = true ∧
    LF1.is_valid_email
      ((LF1.resolve Examples.evBadEmailFulfill.slots).email.getD "") = false ∧
    (LF1.lambda_handler true Examples.evBadEmailFulfill).1.actionType =
      "Close" ∧
    (LF1.lambda_handler true Examples.evBadEmailFulfill).1.intentState =
      "Fulfilled" ∧
    (LF1.lambda_handler true Examples.evBadEmailFulfill).1.slotToElicit =
      none := by
  exact ⟨by decide, by decide, by decide, by decide, by decide⟩

/-- C6 (amended): the structural check rejects an address with no "@"
or no interior dot after the "@" and accepts the local-part "@"
domain-with-dot shape; in a validation-phase invocation where the
location and cuisine checks pass, a present invalid address triggers
an ElicitSlot directive on the email slot with no outbound write; a
present valid address never triggers an email re-elicit in any
invocation; outside the validation phase the check is not applied. -/
theorem c6_amended_email_validation :
    (∀ email : String, (∀ c ∈ email.toList, c ≠ '@') →
      LF1.is_valid_email email = false) ∧
    (∀ (email : String) (a b : List Char),
      (if email.toList.getLast? = some '\n' then email.toList.dropLast
        else email.toList) = a ++ '@' :: b →
      (∀ c ∈ a, c ≠ '@') →
      '.' ∉ (b.drop 1).dropLast →
      LF1.is_valid_email email = false) ∧
    (∀ a m r : List Char, a ≠ [] → m ≠ [] → r ≠ [] →
      (∀ c ∈ a, LF1.okEmailChar c = true) →
      (∀ c ∈ m, LF1.okEmailChar c = true) →
      (∀ c ∈ r, LF1.okEmailChar c = true) →
      LF1.is_valid_email (String.mk (a ++ '@' :: (m ++ '.' :: r))) = true) ∧
    (∀ (cfg : Bool) (ev : LF1.LexEvent),
      ev.intentName = "DiningSuggestionsIntent" →
      ev.invocationSource = "DialogCodeHook" →
      LF1.truthy (LF1.resolve ev.slots).email = true →
      LF1.is_valid_email ((LF1.resolve ev.slots).email.getD "") = false →
      (LF1.truthy (LF1.resolve ev.slots).location = false ∨
        LF1.ALLOWED_LOCATIONS.contains (pyLower (pyStrip
          ((LF1.resolve ev.slots).location.getD ""))) = true) →
      (LF1.truthy (LF1.resolve ev.slots).cuisine = false ∨
        LF1.ALLOWED_CUISINES.contains (pyLower (pyStrip
          ((LF1.resolve ev.slots).cuisine.getD ""))) = true) →
      (LF1.lambda_handler cfg ev).1.actionType = "ElicitSlot" ∧
      (LF1.lambda_handler cfg ev).1.slotToElicit =
        some (if LF1.hasKey ev.slots "Email" then "Email" else "email") ∧
      (LF1.lambda_handler cfg ev).2 = []) ∧
    (∀ (cfg : Bool) (ev : LF1.LexEvent),
      LF1.is_valid_email ((LF1.resolve ev.slots).email.getD "") = true →
      (LF1.lambda_handler cfg ev).1.slotToElicit ≠ some "Email" ∧
      (LF1.lambda_handler cfg ev).1.slotToElicit ≠ some "email") := by
  refine ⟨?_, ?_, ?_, ?_, ?_⟩
  · intro email h
    simp only [LF1.is_valid_email]
    apply emailCore_false_of_no_at
    intro c hc
    apply h
    revert hc
    split
    · exact fun hc => (List.dropLast_sublist _).subset hc
    · exact fun hc => hc
  · intro email a b hdec hat hdot
    simp only [LF1.is_valid_email]
    rw [hdec]
    exact emailCore_false_of_no_domain_dot a b hat hdot
  · intro a m r ha hm hr ha2 hm2 hr2
    simp only [LF1.is_valid_email]
    have hlast : (String.mk (a ++ '@' :: (m ++ '.' :: r))).toList =
        a ++ '@' :: (m ++ '.' :: r) := rfl
    rw [hlast]
    have hln : ¬ (a ++ '@' :: (m ++ '.' :: r)).getLast? = some '\n' := by
      have hrw : a ++ '@' :: (m ++ '.' :: r) = (a ++ '@' :: m ++ ['.']) ++ r := by
        simp
      rw [hrw, List.getLast?_append]
      cases hrl : r.getLast? with
      | none =>
        exact absurd (List.getLast?_eq_none_iff.mp hrl) hr
      | some c =>
        have hcr : c ∈ r := List.mem_of_getLast?_eq_some hrl
        have hok := hr2 c hcr
        simp only [LF1.okEmailChar, Bool.and_eq_true] at hok
        have hsp := hok.1
        rw [Option.or_some]
        intro hEq
        have hc : c = '\n' := Option.some.inj hEq
        rw [hc] at hsp
        simp [pyIsSpace] at hsp
    rw [if_neg hln]
    exact emailCore_of_shape a m r ha hm hr ha2 hm2 hr2
  · intro cfg ev hintent hsrc hemT hemV hloc hcu
    simp only [LF1.lambda_handler]
    rw [hintent]
    have hlocP : ¬ (LF1.truthy (LF1.resolve ev.slots).location = true ∧
        pyLower (pyStrip ((LF1.resolve ev.slots).location.getD "")) ∉
          LF1.ALLOWED_LOCATIONS) := by
      rcases hloc with h | h
      · rintro ⟨h1, -⟩; rw [h] at h1; exact Bool.noConfusion h1
      · rintro ⟨-, h2⟩; exact h2 (by simpa using h)
    have hcuP : ¬ (LF1.truthy (LF1.resolve ev.slots).cuisine = true ∧
        pyLower (pyStrip ((LF1.resolve ev.slots).cuisine.getD "")) ∉
          LF1.ALLOWED_CUISINES) := by
      rcases hcu with h | h
      · rintro ⟨h1, -⟩; rw [h] at h1; exact Bool.noConfusion h1
      · rintro ⟨-, h2⟩; exact h2 (by simpa using h)
    simp [hsrc, hlocP, hcuP, hemT, hemV, LF1.elicit_slot]
  · intro cfg ev hval
    rcases handler_elicit_shape cfg ev with h | h | h | h | h | ⟨-, hinv⟩
    · exact ⟨by simp [h], by simp [h]⟩
    · exact ⟨by simp [h], by simp [h]⟩
    · exact ⟨by simp [h], by simp [h]⟩
    · exact ⟨by simp [h], by simp [h]⟩
    · exact ⟨by simp [h], by simp [h]⟩
    · rw [hval] at hinv
      exact Bool.noConfusion hinv

/-- C6 witness: concrete rejections and acceptance of the structural
check, and the validation-phase re-elicit at a concrete event. -/
theorem c6_amended_email_validation_witness :
    LF1.is_valid_email "no-at-sign" = false ∧
    LF1.is_valid_email "user@nodot" = false ∧
    LF1.is_valid_email "a.b@cd" = false ∧
    LF1.is_valid_email "a@b." = false ∧
    LF1.is_valid_email "a@.b" = false ∧
    LF1.is_valid_email (String.mk ("user".toList ++ '@' ::
      ("site".toList ++ '.' :: "com".toList))) = true ∧
    (LF1.lambda_handler true Examples.evBadEmailDialog).1.actionType =
      "ElicitSlot" ∧
    (LF1.lambda_handler true Examples.evBadEmailDialog).1.slotToElicit =
      some "Email" ∧
    (LF1.lambda_handler true Examples.evBadEmailDialog).2 = [] := by
  have hd := c6_amended_email_validation.2.2.2.1 true Examples.evBadEmailDialog
    rfl rfl (by decide) (by decide) (.inr (by decide)) (.inr (by decide))
  refine ⟨?_, ?_, ?_, ?_, ?_, ?_, hd.1, ?_, hd.2.2⟩
  · exact c6_amended_email_validation.1 "no-at-sign" (by decide)
  · exact c6_amended_email_validation.2.1 "user@nodot" "user".toList
      "nodot".toList (by decide) (by decide) (by decide)
  · exact c6_amended_email_validation.2.1 "a.b@cd" "a.b".toList
      "cd".toList (by decide) (by decide) (by decide)
  · exact c6_amended_email_validation.2.1 "a@b." "a".toList
      "b.".toList (by decide) (by decide) (by decide)
  · exact c6_amended_email_validation.2.1 "a@.b" "a".toList
      ".b".toList (by decide) (by decide) (by decide)
  · exact c6_amended_email_validation.2.2.1 "user".toList "site".toList
      "com".toList (by decide) (by decide) (by decide) (by decide) (by decide)
      (by decide)
  · rw [hd.2.1]
    decide

/-- C9: the Validator writes a user-state record only on the
completion transition: any ddbPut effect of an invocation comes with
a Close response in state Fulfilled and a queue write in the same
invocation, requires an available userId and a truthy cuisine slot
value (stored stripped and lower-cased); and in every store reachable
from empty, each record was written by such an invocation. -/
theorem c9_state_write_only_on_completion (cfg : Bool) :
    (∀ (ev : LF1.LexEvent) (uid loc cu : String) (em : Option String),
      LF1.Effect.ddbPut uid loc cu em ∈ (LF1.lambda_handler cfg ev).2 →
      (LF1.lambda_handler cfg ev).1.actionType = "Close" ∧
      (LF1.lambda_handler cfg ev).1.intentState = "Fulfilled" ∧
      (∃ u0, LF1.get_user_id ev.sessionAttributes = some u0 ∧
        uid = pyStrip u0) ∧
      (∃ raw, (LF1.resolve ev.slots).cuisine = some raw ∧ raw ≠ "" ∧
        cu = pyLower (pyStrip raw)) ∧
      (∃ l c d t p e u, LF1.Effect.sqsSend l c d t p e u ∈
        (LF1.lambda_handler cfg ev).2)) ∧
    (∀ (evs : List LF1.LexEvent) (p : String × LF1.UserRecord),
      p ∈ LF1.runEvents cfg [] evs →
      ∃ ev ∈ evs, ∃ loc cu em,
        LF1.Effect.ddbPut p.1 loc cu em ∈ (LF1.lambda_handler cfg ev).2) := by
  constructor
  · intro ev uid loc cu em hmem
    rcases handler_effects_shape cfg ev with h | ⟨h, hres, hall⟩
    · rw [h] at hmem
      exact absurd hmem (List.not_mem_nil _)
    · by_cases hflag :
        LF1.attrGet ev.sessionAttributes "requestEnqueued" ≠ some "1"
      · have hcr : (LF1.completeRequest cfg ev.sessionAttributes
            (LF1.get_user_id ev.sessionAttributes)
            ((LF1.resolve ev.slots).location.getD "")
            ((LF1.resolve ev.slots).cuisine.getD "")
            ((LF1.resolve ev.slots).date.getD "")
            ((LF1.resolve ev.slots).time.getD "")
            ((LF1.resolve ev.slots).people.getD "")
            ((LF1.resolve ev.slots).email.getD "")).2 =
            LF1.Effect.sqsSend ((LF1.resolve ev.slots).location.getD "")
              (pyLower ((LF1.resolve ev.slots).cuisine.getD ""))
              ((LF1.resolve ev.slots).date.getD "")
              ((LF1.resolve ev.slots).time.getD "")
              ((LF1.resolve ev.slots).people.getD "")
              ((LF1.resolve ev.slots).email.getD "")
              (LF1.get_user_id ev.sessionAttributes) ::
            LF1.save_user_last_search cfg
              (LF1.get_user_id ev.sessionAttributes)
              ((LF1.resolve ev.slots).location.getD "")
              ((LF1.resolve ev.slots).cuisine.getD "")
              ((LF1.resolve ev.slots).email.getD "") := by
          unfold LF1.completeRequest
          rw [if_pos hflag]
        rw [h, hcr] at hmem
        rcases List.mem_cons.mp hmem with heq | hsave
        · exact LF1.Effect.noConfusion heq
        · obtain ⟨u0, hu0, hcfg, hu0ne, hcne, heff⟩ :=
            mem_save _ _ _ _ _ _ hsave
          obtain ⟨huid, hloceq, hcueq, hemeq⟩ := LF1.Effect.ddbPut.inj heff
          simp only [LF1.allPresent, Bool.and_eq_true] at hall
          have hcu := hall.1.1.1.1.2
          cases hraw : (LF1.resolve ev.slots).cuisine with
          | none => rw [hraw] at hcu; exact Bool.noConfusion hcu
          | some raw =>
            have hrawne : raw ≠ "" := by
              rw [hraw] at hcu
              simpa [LF1.truthy] using hcu
            refine ⟨by rw [hres]; rfl, by rw [hres]; rfl, ⟨u0, hu0, huid⟩,
              ⟨raw, rfl, hrawne, ?_⟩, ?_⟩
            · rw [hcueq, hraw]
              rfl
            · exact ⟨(LF1.resolve ev.slots).location.getD "",
                pyLower ((LF1.resolve ev.slots).cuisine.getD ""),
                (LF1.resolve ev.slots).date.getD "",
                (LF1.resolve ev.slots).time.getD "",
                (LF1.resolve ev.slots).people.getD "",
                (LF1.resolve ev.slots).email.getD "",
                LF1.get_user_id ev.sessionAttributes, by
                  rw [h, hcr]
                  exact List.mem_cons_self _ _⟩
      · have hcr2 : (LF1.completeRequest cfg ev.sessionAttributes
            (LF1.get_user_id ev.sessionAttributes)
            ((LF1.resolve ev.slots).location.getD "")
            ((LF1.resolve ev.slots).cuisine.getD "")
            ((LF1.resolve ev.slots).date.getD "")
            ((LF1.resolve ev.slots).time.getD "")
            ((LF1.resolve ev.slots).people.getD "")
            ((LF1.resolve ev.slots).email.getD "")).2 = [] := by
          unfold LF1.completeRequest
          rw [if_neg hflag]
        rw [h, hcr2] at hmem
        exact absurd hmem (List.not_mem_nil _)
  · intro evs p hp
    rcases mem_runEvents cfg evs [] p hp with h | h
    · exact absurd h (List.not_mem_nil _)
    · exact h

/-- C9 witness: the concrete completing invocation and the
single-invocation reachable store. -/
theorem c9_state_write_only_on_completion_witness :
    LF1.Effect.ddbPut "u1" "manhattan" "italian" (some "a@b.c") ∈
      (LF1.lambda_handler true Examples.evComplete).2 ∧
    (LF1.lambda_handler true Examples.evComplete).1.actionType = "Close" ∧
    (LF1.lambda_handler true Examples.evComplete).1.intentState =
      "Fulfilled" ∧
    (∃ l c d t p e u, LF1.Effect.sqsSend l c d t p e u ∈
      (LF1.lambda_handler true Examples.evComplete).2) ∧
    (∃ ev ∈ [Examples.evComplete], ∃ loc cu em,
      LF1.Effect.ddbPut "u1" loc cu em ∈ (LF1.lambda_handler true ev).2) := by
  have hmem : LF1.Effect.ddbPut "u1" "manhattan" "italian" (some "a@b.c") ∈
      (LF1.lambda_handler true Examples.evComplete).2 := by decide
  have h1 := (c9_state_write_only_on_completion true).1 Examples.evComplete
    "u1" "manhattan" "italian" (some "a@b.c") hmem
  have h2 := (c9_state_write_only_on_completion true).2 [Examples.evComplete]
    ("u1", { lastLocation := "manhattan"
             lastCuisine := "italian"
             lastEmail := some "a@b.c" }) (by decide)
  exact ⟨hmem, h1.1, h1.2.1, h1.2.2.2.2, h2⟩

end DiningConcierge
